import Mathlib

/-!
Verification of the VTubersTV git-server statistics service (`src/main.go`).

This file gives a shallow embedding of the caching and aggregation core of
the service and proves properties of it.  Conventions of the embedding:

* Go `time.Time` / `time.Duration` become `Nat` nanoseconds; the zero value
  of `time.Time` is `0`, and `time.Since(t)` at instant `now` is the
  truncated subtraction `now - t` (in Go a timestamp in the future yields a
  negative duration, which compares `≤` any positive constant exactly as the
  truncated `0` does).
* The untyped `CacheItem.Data interface{}` field is `Option (List α)`:
  `none` is the nil interface of the zero value (no write ever happened);
  after `updateStats`/`updateContributors` the interface is non-nil even
  when the stored slice is nil/empty, hence `some payload` with possibly
  empty `payload`.
* The GitHub client is a record of response-returning capabilities; fallible
  upstream calls return `Except String`.
* The Go map `contributorMap` is an association list in insertion order;
  the unspecified (randomized) iteration order Go uses when converting the
  map to a slice is modelled by quantifying over permutations of that
  association list (`ContribOutcome`).
* `sort.Slice` is modelled by `List.mergeSort`; together with the
  permutation quantification this covers every output an unstable sort may
  produce.
-/

namespace GitServer

/-- `cacheDuration = 15 * time.Minute`, in nanoseconds (`main.go` line 24). -/
def cacheDuration : Nat := 15 * 60 * 1000000000

/-- `githubBaseURL` constant (`main.go` line 23). -/
def githubBaseURL : String := "https://github.com/VTubersTV/"

/-- Go struct `RepoStats` (`main.go` lines 27–41). -/
structure RepoStats where
  name : String
  stars : Int
  forks : Int
  contributors : Nat
  commits : Nat
  license : String
  lastUpdated : Nat
  description : String
  language : String
  languageColor : String
  openIssues : Int
  defaultBranch : String
  tags : List String
deriving DecidableEq, Repr

/-- Go struct `ContributorStats` (`main.go` lines 43–48). -/
structure ContributorStats where
  login : String
  avatarURL : String
  contributions : Int
  repositories : List String
deriving DecidableEq, Repr

/-- Go struct `CacheItem` (`main.go` lines 50–53): an untyped payload plus a
write timestamp.  `data = none` is the nil interface of the zero value. -/
structure CacheItem (α : Type) where
  data : Option (List α)
  timestamp : Nat
deriving DecidableEq, Repr

/-- Go struct `Cache` (`main.go` lines 55–59): one entry per statistic kind.
(The single shared `sync.RWMutex` field `mu` is modelled separately by
`lockOf` below.) -/
structure Cache where
  stats : CacheItem RepoStats
  contributors : CacheItem ContributorStats
deriving DecidableEq, Repr

/-- The zero value `&Cache{}` the process starts with (`main.go` line 61). -/
def initialCache : Cache := ⟨⟨none, 0⟩, ⟨none, 0⟩⟩

/-- `Cache.isStale` (`main.go` lines 63–65):
`time.Since(item.Timestamp) > cacheDuration`.  It reads nothing but the
item's timestamp and the clock. -/
def isStale (item : CacheItem α) (now : Nat) : Bool :=
  cacheDuration < now - item.timestamp

/-- `Cache.updateStats` (`main.go` lines 67–74): replace the stats entry
wholesale, stamping the current time. -/
def Cache.updateStats (c : Cache) (now : Nat) (stats : List RepoStats) : Cache :=
  { c with stats := { data := some stats, timestamp := now } }

/-- `Cache.getStats` (`main.go` lines 76–83): returns `(nil, false)` on the
nil interface, else the stored slice and `true`. -/
def Cache.getStats (c : Cache) : List RepoStats × Bool :=
  match c.stats.data with
  | none => ([], false)
  | some s => (s, true)

/-- `Cache.updateContributors` (`main.go` lines 85–92). -/
def Cache.updateContributors (c : Cache) (now : Nat) (cs : List ContributorStats) : Cache :=
  { c with contributors := { data := some cs, timestamp := now } }

/-- `Cache.getContributors` (`main.go` lines 94–101). -/
def Cache.getContributors (c : Cache) : List ContributorStats × Bool :=
  match c.contributors.data with
  | none => ([], false)
  | some s => (s, true)

/-- One element of an upstream contributor listing (the parts of
`github.Contributor` the program reads: `GetLogin`, `GetAvatarURL`,
`GetContributions`). -/
structure Contributor where
  login : String
  avatarURL : String
  contributions : Int
deriving DecidableEq, Repr

/-- One element of an upstream repository listing (the parts of
`github.Repository` the program reads). -/
structure Repo where
  name : String
  isPrivate : Bool
  stargazersCount : Int
  forksCount : Int
  licenseName : String
  updatedAt : Nat
  description : String
  language : String
  openIssuesCount : Int
  defaultBranch : String
deriving DecidableEq, Repr

/-- The upstream GitHub client, as the record of the four capabilities the
program consumes (spec §6); each may fail. -/
structure Client where
  listByOrg : Except String (List Repo)
  listContributors : String → Except String (List Contributor)
  listCommits : String → Except String (List Unit)
  listAllTopics : String → Except String (List String)

/-- The `RepoStats` entry `fetchStats` builds for one public repository
(`main.go` lines 119–156): each of the three sub-queries falls back to the
empty list when it fails (in Go the slice is nil on error, so the `len` is 0
and the copied topic list is empty), and the entry is otherwise filled from
the repository descriptor.  `colorOf` is `colors.GetLanguageColor`, the
external static lookup. -/
def repoStatOf (colorOf : String → String) (client : Client) (r : Repo) : RepoStats :=
  let contributors := match client.listContributors r.name with
    | .error _ => []
    | .ok l => l
  let commits := match client.listCommits r.name with
    | .error _ => []
    | .ok l => l
  let tags := match client.listAllTopics r.name with
    | .error _ => []
    | .ok l => l
  { name := r.name
    stars := r.stargazersCount
    forks := r.forksCount
    contributors := contributors.length
    commits := commits.length
    license := r.licenseName
    lastUpdated := r.updatedAt
    description := r.description
    language := r.language
    languageColor := colorOf r.language
    openIssues := r.openIssuesCount
    defaultBranch := r.defaultBranch
    tags := tags }

/-- `fetchStats` (`main.go` lines 103–161): a failed organization listing is
propagated; otherwise private repositories are skipped and one `RepoStats`
is produced per remaining repository, in listing order. -/
def fetchStats (colorOf : String → String) (client : Client) :
    Except String (List RepoStats) :=
  match client.listByOrg with
  | .error e => .error e
  | .ok repos => .ok ((repos.filter (fun r => !r.isPrivate)).map (repoStatOf colorOf client))

/-- `needle` is a leading segment of `hay` (character-list version of what
`strings.Contains` scans for at each offset). -/
def leadsWith : List Char → List Char → Bool
  | [], _ => true
  | _ :: _, [] => false
  | a :: as, b :: bs => a == b && leadsWith as bs

/-- `needle` occurs as a contiguous run somewhere in `hay`
(`strings.Contains hay needle`). -/
def containsChars (needle : List Char) : List Char → Bool
  | [] => leadsWith needle []
  | c :: t => leadsWith needle (c :: t) || containsChars needle t

/-- The skip test of the contributor loop (`main.go` line 189):
`login == "" || strings.Contains(strings.ToLower(login), "[bot]")`.
Lowercasing is applied per character of the login. -/
def isBotLogin (login : String) : Bool :=
  login == "" || containsChars "[bot]".toList (login.toList.map Char.toLower)

/-- Go map update `contributorMap[login]` (`main.go` lines 193–203) on the
association list in insertion order: the first entry with this login has the
contribution count added and the repository name appended; a missing login
is inserted at the end. -/
def addNamed (repoName : String) (c : Contributor) :
    List ContributorStats → List ContributorStats
  | [] => [{ login := c.login, avatarURL := c.avatarURL,
             contributions := c.contributions, repositories := [repoName] }]
  | s :: rest =>
    if s.login == c.login then
      { s with contributions := s.contributions + c.contributions,
               repositories := s.repositories ++ [repoName] } :: rest
    else
      s :: addNamed repoName c rest

/-- One iteration of the inner contributor loop (`main.go` lines 187–204):
bot and empty logins are skipped, everyone else is merged into the map. -/
def addContributor (repoName : String) (m : List ContributorStats)
    (c : Contributor) : List ContributorStats :=
  if isBotLogin c.login then m else addNamed repoName c m

/-- The whole double loop of `fetchTopContributors` (`main.go` lines
175–205) producing the contributor map: private repositories are skipped,
a repository whose contributor listing fails is skipped, all other
repositories have their contributors merged in listing order. -/
def buildContributorMap (client : Client) (repos : List Repo) :
    List ContributorStats :=
  repos.foldl
    (fun m r =>
      if r.isPrivate then m
      else match client.listContributors r.name with
        | .error _ => m
        | .ok cs => cs.foldl (addContributor r.name) m)
    []

/-- The same merge run directly on a flat list of
(repository name, contributor) pairs, one per occurrence. -/
def mergeTriples (ts : List (String × Contributor)) : List ContributorStats :=
  ts.foldl (fun m t => addContributor t.1 m t.2) []

/-- The comparison `sort.Slice` is given (`main.go` lines 213–215), read as
a `le`: `a` precedes `b` when `a.Contributions ≥ b.Contributions`. -/
def contribGE (a b : ContributorStats) : Bool :=
  b.contributions ≤ a.contributions

/-- The sort of `fetchTopContributors` (`main.go` lines 213–215). -/
def sortContributors (l : List ContributorStats) : List ContributorStats :=
  l.mergeSort contribGE

/-- The limit step (`main.go` lines 218–220 and 341–343):
`if limit > 0 && limit < len(l) { l = l[:limit] }`. -/
def applyLimit (limit : Int) (l : List α) : List α :=
  if 0 < limit ∧ limit < (l.length : Int) then l.take limit.toNat else l

/-- `fetchTopContributors` (`main.go` lines 163–223) in the run where the
map happens to be iterated in insertion order. -/
def fetchTopContributorsCore (client : Client) (limit : Int) :
    Except String (List ContributorStats) :=
  match client.listByOrg with
  | .error e => .error e
  | .ok repos => .ok (applyLimit limit (sortContributors (buildContributorMap client repos)))

/-- The possible results of `fetchTopContributors`: Go iterates the map in
an unspecified (randomized) order when converting it to a slice
(`main.go` lines 208–211), so the slice handed to the sort is an arbitrary
permutation of the merged map content. -/
def ContribOutcome (client : Client) (limit : Int)
    (out : Except String (List ContributorStats)) : Prop :=
  match client.listByOrg with
  | .error e => out = .error e
  | .ok repos => ∃ iter : List ContributorStats,
      iter.Perm (buildContributorMap client repos) ∧
      out = .ok (applyLimit limit (sortContributors iter))

/-- The goroutine body prefetching stats (`main.go` lines 227–234), given
the fetch outcome: an error leaves the cache alone, a success stores the
payload with a fresh timestamp. -/
def applyStatsRefresh (c : Cache) (now : Nat)
    (result : Except String (List RepoStats)) : Cache :=
  match result with
  | .error _ => c
  | .ok stats => c.updateStats now stats

/-- The goroutine body prefetching contributors (`main.go` lines 237–244). -/
def applyContributorsRefresh (c : Cache) (now : Nat)
    (result : Except String (List ContributorStats)) : Cache :=
  match result with
  | .error _ => c
  | .ok cs => c.updateContributors now cs

/-- The comparison `sort.Slice` is given in the stats handler
(`main.go` lines 307–309), read as a `le`: descending star count. -/
def starsGE (a b : RepoStats) : Bool :=
  b.stars ≤ a.stars

/-- The presentation sort of the stats handler (`main.go` lines 307–309). -/
def sortByStars (l : List RepoStats) : List RepoStats :=
  l.mergeSort starsGE

/-- The totals loop of the stats handler (`main.go` lines 298–304). -/
def totalStars (l : List RepoStats) : Int := (l.map (·.stars)).sum

/-- Total forks over a stats payload (`main.go` line 301). -/
def totalForks (l : List RepoStats) : Int := (l.map (·.forks)).sum

/-- Total contributor count over a stats payload (`main.go` line 302). -/
def totalContributors (l : List RepoStats) : Nat := (l.map (·.contributors)).sum

/-- Total commit count over a stats payload (`main.go` line 303). -/
def totalCommits (l : List RepoStats) : Nat := (l.map (·.commits)).sum

/-- What a handler sends back: a 200 payload or a 500 with the error text. -/
inductive HandlerResult (α : Type) where
  | ok (payload : α)
  | serverError (msg : String)
deriving DecidableEq, Repr

/-- The JSON object the stats handler responds with (`main.go` lines
311–318). -/
structure StatsResponse where
  repositories : List RepoStats
  totalStars : Int
  totalForks : Int
  totalContributors : Nat
  totalCommits : Nat
  githubUrl : String
deriving DecidableEq, Repr

/-- The `"stats"` branch of the request handler (`main.go` lines 285–321).
Go detail that the embedding reproduces: `getStats` returns the slice
header stored in the cache, and in the refresh branch `updateStats(stats)`
stores the very slice the handler goes on sorting, so the in-place
`sort.Slice` at lines 307–309 reorders the cached backing array itself.
The cache therefore leaves the handler holding the sorted payload — with an
untouched timestamp when the entry was served fresh. -/
def handleStats (colorOf : String → String) (client : Client) (now : Nat)
    (c : Cache) : Cache × HandlerResult StatsResponse :=
  let got := c.getStats
  if !got.2 || isStale c.stats now then
    match fetchStats colorOf client with
    | .error e => (c, .serverError e)
    | .ok stats =>
      let c1 := c.updateStats now stats
      let sorted := sortByStars stats
      ({ c1 with stats := { c1.stats with data := some sorted } },
       .ok { repositories := sorted
             totalStars := totalStars stats
             totalForks := totalForks stats
             totalContributors := totalContributors stats
             totalCommits := totalCommits stats
             githubUrl := githubBaseURL })
  else
    let stats := got.1
    let sorted := sortByStars stats
    ({ c with stats := { c.stats with data := some sorted } },
     .ok { repositories := sorted
           totalStars := totalStars stats
           totalForks := totalForks stats
           totalContributors := totalContributors stats
           totalCommits := totalCommits stats
           githubUrl := githubBaseURL })

/-- The `"contributors"` branch of the request handler (`main.go` lines
322–346), after the query-string parse has produced `limit`.  The refresh
always fetches with limit 0; the requested limit is applied by reslicing,
which never writes to the cached backing array.  (The fetch is taken in
insertion-order form; the claims about this handler do not depend on the
map iteration order.) -/
def handleContributors (client : Client) (now : Nat) (limit : Int)
    (c : Cache) : Cache × HandlerResult (List ContributorStats) :=
  let got := c.getContributors
  if !got.2 || isStale c.contributors now then
    match fetchTopContributorsCore client 0 with
    | .error e => (c, .serverError e)
    | .ok cs => (c.updateContributors now cs, .ok (applyLimit limit cs))
  else
    (c, .ok (applyLimit limit got.1))

/-- The two statistic kinds the cache distinguishes. -/
inductive StatKind where
  | stats
  | contributors
deriving DecidableEq, Repr

/-- The four cache operations (`main.go` lines 67–101). -/
inductive CacheOp where
  | readOp (k : StatKind)
  | writeOp (k : StatKind)
deriving DecidableEq, Repr

/-- The mutexes declared by the program: `Cache` holds exactly one
`sync.RWMutex`, the field `mu` (`main.go` line 58). -/
inductive LockId where
  | cacheMu
deriving DecidableEq, Repr

/-- Which mutex each cache operation acquires: `updateStats` and
`updateContributors` call `c.mu.Lock()` (lines 68, 86), `getStats` and
`getContributors` call `c.mu.RLock()` (lines 77, 95) — all four on the one
shared field `mu`. -/
def lockOf : CacheOp → LockId
  | .readOp .stats => .cacheMu
  | .readOp .contributors => .cacheMu
  | .writeOp .stats => .cacheMu
  | .writeOp .contributors => .cacheMu

/-- Whether the operation takes the write side of its RWMutex. -/
def isWriteOp : CacheOp → Bool
  | .readOp _ => false
  | .writeOp _ => true

/-- RWMutex blocking: two operations can block each other exactly when they
acquire the same mutex and at least one takes the write side. -/
def mayBlock (o1 o2 : CacheOp) : Prop :=
  lockOf o1 = lockOf o2 ∧ (isWriteOp o1 = true ∨ isWriteOp o2 = true)

instance (o1 o2 : CacheOp) : Decidable (mayBlock o1 o2) := by
  unfold mayBlock; infer_instance

/-- The cache states the process can reach: the zero value, then any
interleaving of prefetch completions and request handlers. -/
inductive Reachable : Cache → Prop
  | init : Reachable initialCache
  | statsRefresh {c : Cache} (now : Nat) (stats : List RepoStats) :
      Reachable c → Reachable (c.updateStats now stats)
  | contributorsRefresh {c : Cache} (now : Nat) (cs : List ContributorStats) :
      Reachable c → Reachable (c.updateContributors now cs)
  | statsRead {c : Cache} (colorOf : String → String) (client : Client) (now : Nat) :
      Reachable c → Reachable (handleStats colorOf client now c).1
  | contributorsRead {c : Cache} (client : Client) (now : Nat) (limit : Int) :
      Reachable c → Reachable (handleContributors client now limit c).1

/-! ### Helper lemmas about the handlers and the cache -/

theorem handleStats_fst_contributors (colorOf : String → String) (client : Client)
    (now : Nat) (c : Cache) :
    (handleStats colorOf client now c).1.contributors = c.contributors := by
  unfold handleStats
  dsimp only
  split
  · split <;> rfl
  · rfl

theorem handleStats_stats_spec (colorOf : String → String) (client : Client)
    (now : Nat) (c : Cache) :
    (handleStats colorOf client now c).1.stats = c.stats ∨
    (∃ l, fetchStats colorOf client = .ok l ∧
       (handleStats colorOf client now c).1.stats = ⟨some (sortByStars l), now⟩) ∨
    (∃ old, c.stats.data = some old ∧
       (handleStats colorOf client now c).1.stats =
         ⟨some (sortByStars old), c.stats.timestamp⟩) := by
  unfold handleStats
  dsimp only
  split
  · split
    · exact .inl rfl
    · rename_i stats hok
      exact .inr (.inl ⟨stats, hok, rfl⟩)
  · rename_i hcond
    match hd : c.stats.data with
    | none =>
      exact absurd (by simp [Cache.getStats, hd]) hcond
    | some old =>
      refine .inr (.inr ⟨old, rfl, ?_⟩)
      simp only [Cache.getStats, hd]

theorem handleContributors_fst_stats (client : Client) (now : Nat)
    (limit : Int) (c : Cache) :
    (handleContributors client now limit c).1.stats = c.stats := by
  unfold handleContributors
  dsimp only
  split
  · split <;> rfl
  · rfl

theorem handleContributors_contributors_spec (client : Client) (now : Nat)
    (limit : Int) (c : Cache) :
    (handleContributors client now limit c).1.contributors = c.contributors ∨
    ∃ cs, fetchTopContributorsCore client 0 = .ok cs ∧
      (handleContributors client now limit c).1.contributors = ⟨some cs, now⟩ := by
  unfold handleContributors
  dsimp only
  split
  · split
    · exact .inl rfl
    · rename_i cs hok
      exact .inr ⟨cs, hok, rfl⟩
  · exact .inl rfl

/-- Invariant of every reachable cache state: an entry that was never
written still carries the zero timestamp. -/
theorem reachable_unwritten_timestamp {c : Cache} (h : Reachable c) :
    (c.stats.data = none → c.stats.timestamp = 0) ∧
    (c.contributors.data = none → c.contributors.timestamp = 0) := by
  induction h with
  | init => exact ⟨fun _ => rfl, fun _ => rfl⟩
  | statsRefresh now stats _ ih =>
    exact ⟨fun h => by simp [Cache.updateStats] at h, ih.2⟩
  | contributorsRefresh now cs _ ih =>
    exact ⟨ih.1, fun h => by simp [Cache.updateContributors] at h⟩
  | statsRead colorOf client now _ ih =>
    rename_i c' _
    constructor
    · rcases handleStats_stats_spec colorOf client now c' with h | ⟨l, _, h⟩ | ⟨old, _, h⟩ <;>
        rw [h]
      · exact ih.1
      · exact fun hn => Option.noConfusion hn
      · exact fun hn => Option.noConfusion hn
    · rw [handleStats_fst_contributors]; exact ih.2
  | contributorsRead client now limit _ ih =>
    rename_i c' _
    constructor
    · rw [handleContributors_fst_stats]; exact ih.1
    · rcases handleContributors_contributors_spec client now limit c' with h | ⟨cs, _, h⟩ <;>
        rw [h]
      · exact ih.2
      · exact fun hn => Option.noConfusion hn

/-! ### Observables of the contributor merge -/

/-- Lookup in the contributor map (the association list) by login. -/
def findLogin (login : String) (m : List ContributorStats) : Option ContributorStats :=
  m.find? (fun s => s.login == login)

/-- Whether the map holds an entry for this login. -/
def hasLogin (login : String) (m : List ContributorStats) : Bool :=
  (findLogin login m).isSome

/-- The contribution total the map records for a login (0 when absent). -/
def totalOf (login : String) (m : List ContributorStats) : Int :=
  match findLogin login m with
  | none => 0
  | some s => s.contributions

/-- The repository list the map records for a login ([] when absent). -/
def reposOf (login : String) (m : List ContributorStats) : List String :=
  match findLogin login m with
  | none => []
  | some s => s.repositories

/-- Whether one (repository, contributor) occurrence survives the bot
filter and belongs to the given login. -/
def occursTriple (login : String) (t : String × Contributor) : Bool :=
  !isBotLogin t.2.login && t.2.login == login

/-- The contribution a single occurrence adds to the given login's total. -/
def contribWeight (login : String) (t : String × Contributor) : Int :=
  if occursTriple login t then t.2.contributions else 0

/-- The repository names a list of occurrences appends to the given login's
repository list, in processing order. -/
def repoNamesFor (login : String) (ts : List (String × Contributor)) : List String :=
  (ts.filter (occursTriple login)).map (·.1)

theorem findLogin_addNamed (login repoName : String) (c : Contributor)
    (m : List ContributorStats) :
    findLogin login (addNamed repoName c m) =
      if login = c.login then
        match findLogin login m with
        | none => some { login := c.login, avatarURL := c.avatarURL,
                         contributions := c.contributions, repositories := [repoName] }
        | some s => some ({ s with
            contributions := s.contributions + c.contributions,
            repositories := s.repositories ++ [repoName] })
      else findLogin login m := by
  induction m with
  | nil =>
    by_cases h : login = c.login
    · subst h
      simp [findLogin, addNamed, List.find?]
    · have hb : (c.login == login) = false := beq_eq_false_iff_ne.2 (Ne.symm h)
      simp [findLogin, addNamed, List.find?, hb, h]
  | cons s rest ih =>
    by_cases hsc : s.login = c.login
    · have hb : (s.login == c.login) = true := beq_iff_eq.2 hsc
      by_cases h : login = c.login
      · have hsl : (s.login == login) = true := beq_iff_eq.2 (h ▸ hsc)
        simp [findLogin, addNamed, List.find?, hb, hsl, h, hsc]
      · have hsl : (s.login == login) = false :=
          beq_eq_false_iff_ne.2 (fun he => h (he ▸ hsc ▸ rfl))
        simp [findLogin, addNamed, List.find?, hb, hsl, h]
    · have hb : (s.login == c.login) = false := beq_eq_false_iff_ne.2 hsc
      by_cases hsl : s.login = login
      · have hb2 : (s.login == login) = true := beq_iff_eq.2 hsl
        have h : ¬login = c.login := fun he => hsc (hsl.trans he)
        simp [findLogin, addNamed, List.find?, hb, hb2, h]
      · have hb2 : (s.login == login) = false := beq_eq_false_iff_ne.2 hsl
        simp only [findLogin, addNamed, List.find?, hb, hb2] at ih ⊢
        simpa [findLogin, List.find?, hb2] using ih

theorem findLogin_addContributor (login repoName : String)
    (m : List ContributorStats) (c : Contributor) :
    findLogin login (addContributor repoName m c) =
      if occursTriple login (repoName, c) then
        match findLogin login m with
        | none => some { login := c.login, avatarURL := c.avatarURL,
                         contributions := c.contributions, repositories := [repoName] }
        | some s => some ({ s with
            contributions := s.contributions + c.contributions,
            repositories := s.repositories ++ [repoName] })
      else findLogin login m := by
  unfold addContributor occursTriple
  by_cases hbot : isBotLogin c.login
  · simp [hbot]
  · by_cases h : login = c.login
    · have hbeq : (c.login == login) = true := beq_iff_eq.2 h.symm
      rw [if_neg (by simp [hbot]), findLogin_addNamed, if_pos h]
      simp [hbot, hbeq]
    · have hbeq : (c.login == login) = false := beq_eq_false_iff_ne.2 (Ne.symm h)
      rw [if_neg (by simp [hbot]), findLogin_addNamed, if_neg h]
      simp [hbot, hbeq]

theorem totalOf_addContributor (login repoName : String)
    (m : List ContributorStats) (c : Contributor) :
    totalOf login (addContributor repoName m c) =
      totalOf login m + contribWeight login (repoName, c) := by
  unfold totalOf contribWeight
  rw [findLogin_addContributor]
  by_cases ho : occursTriple login (repoName, c) = true
  · rw [if_pos ho, if_pos ho]
    cases hf : findLogin login m <;> simp
  · rw [if_neg ho, if_neg ho]
    cases hf : findLogin login m <;> simp

theorem reposOf_addContributor (login repoName : String)
    (m : List ContributorStats) (c : Contributor) :
    reposOf login (addContributor repoName m c) =
      reposOf login m ++
        (if occursTriple login (repoName, c) then [repoName] else []) := by
  unfold reposOf
  rw [findLogin_addContributor]
  by_cases ho : occursTriple login (repoName, c) = true
  · rw [if_pos ho, if_pos ho]
    cases hf : findLogin login m <;> simp
  · rw [if_neg ho, if_neg ho]
    cases hf : findLogin login m <;> simp

theorem hasLogin_addContributor (login repoName : String)
    (m : List ContributorStats) (c : Contributor) :
    hasLogin login (addContributor repoName m c) =
      (hasLogin login m || occursTriple login (repoName, c)) := by
  unfold hasLogin
  rw [findLogin_addContributor]
  by_cases ho : occursTriple login (repoName, c) = true
  · rw [if_pos ho, ho]
    cases hf : findLogin login m <;> simp
  · rw [if_neg ho]
    simp only [ho, Bool.or_false]

theorem totalOf_foldl (login : String) (ts : List (String × Contributor)) :
    ∀ m, totalOf login (ts.foldl (fun m t => addContributor t.1 m t.2) m) =
      totalOf login m + (ts.map (contribWeight login)).sum := by
  induction ts with
  | nil => intro m; simp
  | cons t rest ih =>
    intro m
    simp only [List.foldl_cons, List.map_cons, List.sum_cons]
    rw [ih, totalOf_addContributor]
    ring

theorem reposOf_foldl (login : String) (ts : List (String × Contributor)) :
    ∀ m, reposOf login (ts.foldl (fun m t => addContributor t.1 m t.2) m) =
      reposOf login m ++ repoNamesFor login ts := by
  induction ts with
  | nil => intro m; simp [repoNamesFor]
  | cons t rest ih =>
    intro m
    simp only [List.foldl_cons]
    rw [ih, reposOf_addContributor]
    unfold repoNamesFor
    by_cases ho : occursTriple login t = true <;>
      simp [List.filter_cons, ho]

theorem hasLogin_foldl (login : String) (ts : List (String × Contributor)) :
    ∀ m, hasLogin login (ts.foldl (fun m t => addContributor t.1 m t.2) m) =
      (hasLogin login m || ts.any (occursTriple login)) := by
  induction ts with
  | nil => intro m; simp
  | cons t rest ih =>
    intro m
    simp only [List.foldl_cons, List.any_cons]
    rw [ih, hasLogin_addContributor, Bool.or_assoc]

theorem loginList_addNamed (repoName : String) (c : Contributor)
    (m : List ContributorStats) :
    (addNamed repoName c m).map (fun s => s.login) =
      if hasLogin c.login m then m.map (fun s => s.login)
      else m.map (fun s => s.login) ++ [c.login] := by
  induction m with
  | nil => simp [addNamed, hasLogin, findLogin, List.find?]
  | cons s rest ih =>
    by_cases hsc : (s.login == c.login) = true
    · simp [addNamed, hsc, hasLogin, findLogin, List.find?, beq_iff_eq.1 hsc]
    · have hsc' : (s.login == c.login) = false := by
        cases hb : (s.login == c.login) with
        | true => exact absurd hb hsc
        | false => rfl
      simp only [addNamed, hsc', Bool.false_eq_true, if_false, List.map_cons,
        hasLogin, findLogin, List.find?, ih]
      by_cases hr : (rest.find? (fun x => x.login == c.login)).isSome = true <;>
        simp [hasLogin, findLogin, hr]

theorem nodup_logins_addContributor (repoName : String) (c : Contributor)
    (m : List ContributorStats)
    (h : (m.map (fun s => s.login)).Nodup) :
    ((addContributor repoName m c).map (fun s => s.login)).Nodup := by
  unfold addContributor
  split
  · exact h
  · rw [loginList_addNamed]
    split
    · exact h
    · rename_i hno
      have hmem : c.login ∉ m.map (fun s => s.login) := by
        intro hmemm
        obtain ⟨s, hs, he⟩ := List.mem_map.1 hmemm
        have hfind : findLogin c.login m ≠ none := by
          intro hnone
          exact absurd (beq_iff_eq.2 he)
            (by simpa using (List.find?_eq_none.1 hnone) s hs)
        rcases hf : findLogin c.login m with _ | v
        · exact hfind hf
        · exact hno (by simp [hasLogin, hf])
      exact h.append (List.nodup_singleton _) (List.disjoint_singleton.2 hmem)

theorem nodup_logins_foldl (ts : List (String × Contributor)) :
    ∀ m, (m.map (fun s => s.login)).Nodup →
      ((ts.foldl (fun m t => addContributor t.1 m t.2) m).map (fun s => s.login)).Nodup := by
  induction ts with
  | nil => exact fun m h => h
  | cons t rest ih =>
    intro m h
    exact ih _ (nodup_logins_addContributor t.1 t.2 m h)

/-- All entries of a contributor map carry logins that pass the bot
filter. -/
def NonBotEntries (m : List ContributorStats) : Prop :=
  ∀ e ∈ m, isBotLogin e.login = false

theorem nonbot_addNamed (repoName : String) (c : Contributor)
    (hc : isBotLogin c.login = false) (m : List ContributorStats)
    (h : NonBotEntries m) : NonBotEntries (addNamed repoName c m) := by
  induction m with
  | nil =>
    intro e he
    simp only [addNamed, List.mem_singleton] at he
    subst he; exact hc
  | cons s rest ih =>
    intro e he
    rw [addNamed] at he
    by_cases hsc : (s.login == c.login) = true
    · rw [if_pos hsc] at he
      rcases List.mem_cons.1 he with he | he
      · subst he; exact h s (List.mem_cons_self s rest)
      · exact h e (List.mem_cons_of_mem s he)
    · rw [if_neg hsc] at he
      rcases List.mem_cons.1 he with he | he
      · rw [he]; exact h s (List.mem_cons_self s rest)
      · exact ih (fun x hx => h x (List.mem_cons_of_mem s hx)) e he

theorem nonbot_addContributor (repoName : String) (c : Contributor)
    (m : List ContributorStats) (h : NonBotEntries m) :
    NonBotEntries (addContributor repoName m c) := by
  unfold addContributor
  by_cases hb : isBotLogin c.login = true
  · rw [if_pos hb]; exact h
  · rw [if_neg hb]
    exact nonbot_addNamed repoName c (Bool.not_eq_true _ ▸ hb) m h

theorem nonbot_foldl_triples (ts : List (String × Contributor)) :
    ∀ m, NonBotEntries m →
      NonBotEntries (ts.foldl (fun m t => addContributor t.1 m t.2) m) := by
  induction ts with
  | nil => exact fun m h => h
  | cons t rest ih =>
    intro m h
    exact ih _ (nonbot_addContributor t.1 t.2 m h)

theorem nonbot_foldl_contribs (repoName : String) (cs : List Contributor) :
    ∀ m, NonBotEntries m → NonBotEntries (cs.foldl (addContributor repoName) m) := by
  induction cs with
  | nil => exact fun m h => h
  | cons c rest ih =>
    intro m h
    exact ih _ (nonbot_addContributor repoName c m h)

theorem nonbot_buildContributorMap (client : Client) (repos : List Repo) :
    NonBotEntries (buildContributorMap client repos) := by
  unfold buildContributorMap
  suffices h : ∀ m, NonBotEntries m → NonBotEntries (repos.foldl
      (fun m r =>
        if r.isPrivate then m
        else match client.listContributors r.name with
          | .error _ => m
          | .ok cs => cs.foldl (addContributor r.name) m) m) by
    exact h [] (fun e he => absurd he (List.not_mem_nil e))
  induction repos with
  | nil => exact fun m h => h
  | cons r rest ih =>
    intro m h
    refine ih _ ?_
    by_cases hp : r.isPrivate = true
    · simpa [hp] using h
    · rcases hc : client.listContributors r.name with e | cs
      · simpa [hp, hc] using h
      · simpa [hp, hc] using nonbot_foldl_contribs r.name cs m h

/-- Occurrences whose login fails the bot filter are transparently dropped
by the merge. -/
theorem foldl_filter_nonbot (ts : List (String × Contributor)) :
    ∀ m, ts.foldl (fun m t => addContributor t.1 m t.2) m =
      (ts.filter (fun t => !isBotLogin t.2.login)).foldl
        (fun m t => addContributor t.1 m t.2) m := by
  induction ts with
  | nil => intro m; rfl
  | cons t rest ih =>
    intro m
    by_cases hb : isBotLogin t.2.login = true
    · have hskip : addContributor t.1 m t.2 = m := by
        unfold addContributor; rw [if_pos hb]
      simp only [List.foldl_cons, List.filter_cons, hb, Bool.not_true,
        Bool.false_eq_true, if_false, hskip]
      exact ih m
    · have hb' : isBotLogin t.2.login = false := by
        cases hx : isBotLogin t.2.login with
        | true => exact absurd hx hb
        | false => rfl
      simp only [List.foldl_cons, List.filter_cons, hb', Bool.not_false, if_pos]
      exact ih _

/-! ### Sorting lemmas -/

theorem contribGE_trans : ∀ a b c : ContributorStats,
    contribGE a b = true → contribGE b c = true → contribGE a c = true := by
  intro a b c h1 h2
  simp only [contribGE, decide_eq_true_eq] at h1 h2 ⊢
  exact le_trans h2 h1

theorem contribGE_total : ∀ a b : ContributorStats,
    (contribGE a b || contribGE b a) = true := by
  intro a b
  simp only [contribGE, Bool.or_eq_true, decide_eq_true_eq]
  exact le_total b.contributions a.contributions

theorem sortContributors_pairwise (l : List ContributorStats) :
    (sortContributors l).Pairwise (fun a b => contribGE a b = true) :=
  List.sorted_mergeSort contribGE_trans contribGE_total l

theorem sortContributors_perm (l : List ContributorStats) :
    (sortContributors l).Perm l :=
  List.mergeSort_perm l _

theorem applyLimit_pairwise {r : α → α → Prop} (limit : Int) (l : List α)
    (h : l.Pairwise r) : (applyLimit limit l).Pairwise r := by
  unfold applyLimit
  split
  · exact List.Pairwise.sublist (List.take_sublist _ _) h
  · exact h

/-! ### Concrete fixtures used for witnesses and counterexamples -/

/-- A constant language-color lookup for concrete instantiations. -/
def colorDefault : String → String := fun _ => "#ededed"

/-- A client whose organization listing (and everything else) fails. -/
def clientDown : Client :=
  { listByOrg := .error "boom"
    listContributors := fun _ => .error "boom"
    listCommits := fun _ => .error "boom"
    listAllTopics := fun _ => .error "boom" }

/-- A public repository descriptor with the given name. -/
def repoFixture (n : String) : Repo :=
  { name := n, isPrivate := false, stargazersCount := 0, forksCount := 0,
    licenseName := "", updatedAt := 0, description := "", language := "",
    openIssuesCount := 0, defaultBranch := "main" }

/-! ### Claims -/

/-- C1: for each statistic kind, `isStale` is true iff no successful write
has ever occurred for that kind (the entry still holds its initial zero
timestamp) or more than the 15-minute TTL has elapsed since the stored
write timestamp; no other signal enters the decision.  `hnow` says the
clock reads an instant more than one TTL after the zero time (true of any
realistic clock, since Go's zero `time.Time` is the year 1). -/
theorem isStale_iff_never_written_or_expired (c : Cache) (now : Nat)
    (hreach : Reachable c) (hnow : cacheDuration < now) :
    (isStale c.stats now = true ↔
      (c.stats.data = none ∨ cacheDuration < now - c.stats.timestamp)) ∧
    (isStale c.contributors now = true ↔
      (c.contributors.data = none ∨
        cacheDuration < now - c.contributors.timestamp)) := by
  obtain ⟨h1, h2⟩ := reachable_unwritten_timestamp hreach
  constructor
  · constructor
    · intro h
      exact .inr (by simpa [isStale] using h)
    · rintro (h | h)
      · rw [isStale, h1 h]
        simpa using hnow
      · simpa [isStale] using h
  · constructor
    · intro h
      exact .inr (by simpa [isStale] using h)
    · rintro (h | h)
      · rw [isStale, h2 h]
        simpa using hnow
      · simpa [isStale] using h

theorem isStale_iff_never_written_or_expired_witness :
    (isStale initialCache.stats (cacheDuration + 1) = true ↔
      (initialCache.stats.data = none ∨
        cacheDuration < cacheDuration + 1 - initialCache.stats.timestamp)) ∧
    (isStale initialCache.contributors (cacheDuration + 1) = true ↔
      (initialCache.contributors.data = none ∨
        cacheDuration < cacheDuration + 1 - initialCache.contributors.timestamp)) :=
  isStale_iff_never_written_or_expired initialCache (cacheDuration + 1)
    Reachable.init (Nat.lt_succ_self _)

/-- C2: an aggregation attempt that returns an error leaves the cache entry
for that kind — payload and timestamp — exactly as it was: the prefetch
goroutines return without writing, and the synchronous refresh paths of
both handlers respond with the error and an untouched cache, so any
subsequent get returns what it would have returned before. -/
theorem failed_refresh_leaves_cache (c : Cache) (now : Nat) (e : String)
    (colorOf : String → String) (client : Client) (limit : Int) :
    applyStatsRefresh c now (.error e) = c ∧
    applyContributorsRefresh c now (.error e) = c ∧
    (applyStatsRefresh c now (.error e)).getStats = c.getStats ∧
    (applyContributorsRefresh c now (.error e)).getContributors =
      c.getContributors ∧
    (fetchStats colorOf client = .error e →
      (!(c.getStats).2 || isStale c.stats now) = true →
      handleStats colorOf client now c = (c, .serverError e)) ∧
    (fetchTopContributorsCore client 0 = .error e →
      (!(c.getContributors).2 || isStale c.contributors now) = true →
      handleContributors client now limit c = (c, .serverError e)) := by
  refine ⟨rfl, rfl, rfl, rfl, ?_, ?_⟩
  · intro hf hguard
    unfold handleStats
    dsimp only
    rw [if_pos hguard, hf]
  · intro hf hguard
    unfold handleContributors
    dsimp only
    rw [if_pos hguard, hf]

theorem failed_refresh_leaves_cache_witness :
    handleStats colorDefault clientDown 5 initialCache =
      (initialCache, .serverError "boom") ∧
    handleContributors clientDown 5 7 initialCache =
      (initialCache, .serverError "boom") ∧
    applyStatsRefresh initialCache 5 (.error "boom") = initialCache ∧
    applyContributorsRefresh initialCache 5 (.error "boom") = initialCache :=
  ⟨(failed_refresh_leaves_cache initialCache 5 "boom" colorDefault clientDown
      7).2.2.2.2.1 rfl rfl,
   (failed_refresh_leaves_cache initialCache 5 "boom" colorDefault clientDown
      7).2.2.2.2.2 rfl rfl,
   (failed_refresh_leaves_cache initialCache 5 "boom" colorDefault clientDown
      7).1,
   (failed_refresh_leaves_cache initialCache 5 "boom" colorDefault clientDown
      7).2.1⟩

/-- C4 as claimed is false of the code: all four cache operations take the
single shared RWMutex `mu`, so a write to the repository-stats entry does
block concurrent reads and writes of the contributor entry. -/
theorem statsWrite_blocks_contributorOps :
    mayBlock (.writeOp .stats) (.readOp .contributors) ∧
    mayBlock (.writeOp .stats) (.writeOp .contributors) ∧
    lockOf (.writeOp .stats) = lockOf (.readOp .contributors) :=
  ⟨⟨rfl, .inl rfl⟩, ⟨rfl, .inl rfl⟩, rfl⟩

/-- C4 (amended): the two kind-specific entries are NOT independent for
synchronization: every cache operation acquires the one shared
reader-writer mutex `mu`, and two operations may block each other exactly
when at least one of them is a write — whatever their kinds.  Only
read/read pairs are free of mutual exclusion. -/
theorem single_shared_lock (o1 o2 : CacheOp) :
    lockOf o1 = .cacheMu ∧
    (mayBlock o1 o2 ↔ (isWriteOp o1 = true ∨ isWriteOp o2 = true)) := by
  have hall : ∀ o : CacheOp, lockOf o = .cacheMu := fun o =>
    match h : lockOf o with
    | .cacheMu => h
  exact ⟨hall o1,
    ⟨fun h => h.2, fun h => ⟨(hall o1).trans (hall o2).symm, h⟩⟩⟩

/-- An unsorted concrete stats payload: 5 stars before 20 stars. -/
def repoStatA : RepoStats :=
  { name := "a", stars := 5, forks := 0, contributors := 0, commits := 0,
    license := "", lastUpdated := 0, description := "", language := "",
    languageColor := "", openIssues := 0, defaultBranch := "", tags := [] }

/-- The 20-star companion of `repoStatA`. -/
def repoStatB : RepoStats :=
  { name := "b", stars := 20, forks := 0, contributors := 0, commits := 0,
    license := "", lastUpdated := 0, description := "", language := "",
    languageColor := "", openIssues := 0, defaultBranch := "", tags := [] }

/-- A fresh cache whose stats payload is not star-sorted. -/
def cacheUnsorted : Cache := ⟨⟨some [repoStatA, repoStatB], 100⟩, ⟨none, 0⟩⟩

/-- C5 as claimed is false of the code: serving a fresh stats read mutates
the cached payload.  `getStats` returns the slice header aliasing the
cached backing array and `sort.Slice` reorders it in place, so after the
read the entry holds `[b, a]` where it held `[a, b]`. -/
theorem stats_read_mutates_cache :
    isStale cacheUnsorted.stats 100 = false ∧
    cacheUnsorted.stats.data = some [repoStatA, repoStatB] ∧
    (handleStats colorDefault clientDown 100 cacheUnsorted).1.stats.data =
      some [repoStatB, repoStatA] ∧
    (handleStats colorDefault clientDown 100 cacheUnsorted).1.stats.data ≠
      cacheUnsorted.stats.data := by
  have hsort : sortByStars [repoStatA, repoStatB] = [repoStatB, repoStatA] := by
    simp [sortByStars, List.mergeSort, List.merge, starsGE, repoStatA, repoStatB]
  have hdata : (handleStats colorDefault clientDown 100 cacheUnsorted).1.stats.data =
      some (sortByStars [repoStatA, repoStatB]) := by
    unfold handleStats
    dsimp only
    rw [if_neg (by decide)]
    rfl
  refine ⟨by decide, rfl, ?_, ?_⟩
  · rw [hdata, hsort]
  · rw [hdata, hsort]
    decide

/-- C5 (amended): a contributors read never touches the stats entry and
either leaves the contributor entry untouched or replaces it wholesale
with the full fetched sequence — the requested limit is applied to a
reslice of the response and never persisted.  A stats read never touches
the contributor entry, but it does reorder the cached stats payload in
place: after the read the entry holds a star-descending permutation of the
payload it served (with the timestamp unchanged when the entry was served
fresh, and the refresh time when it was refreshed); the element multiset
is preserved and no other mutation ever happens to a cache entry. -/
theorem read_mutation_frame (colorOf : String → String) (client : Client)
    (now : Nat) (limit : Int) (c : Cache) :
    (handleContributors client now limit c).1.stats = c.stats ∧
    ((handleContributors client now limit c).1.contributors = c.contributors ∨
      ∃ cs, fetchTopContributorsCore client 0 = .ok cs ∧
        (handleContributors client now limit c).1.contributors =
          ⟨some cs, now⟩) ∧
    (handleStats colorOf client now c).1.contributors = c.contributors ∧
    ((handleStats colorOf client now c).1.stats = c.stats ∨
      (∃ l, fetchStats colorOf client = .ok l ∧
        (handleStats colorOf client now c).1.stats =
          ⟨some (sortByStars l), now⟩ ∧ (sortByStars l).Perm l) ∨
      (∃ old, c.stats.data = some old ∧
        (handleStats colorOf client now c).1.stats =
          ⟨some (sortByStars old), c.stats.timestamp⟩ ∧
        (sortByStars old).Perm old)) := by
  refine ⟨handleContributors_fst_stats client now limit c,
    handleContributors_contributors_spec client now limit c,
    handleStats_fst_contributors colorOf client now c, ?_⟩
  rcases handleStats_stats_spec colorOf client now c with h | ⟨l, hf, h⟩ | ⟨old, hd, h⟩
  · exact .inl h
  · exact .inr (.inl ⟨l, hf, h, List.mergeSort_perm l _⟩)
  · exact .inr (.inr ⟨old, hd, h, List.mergeSort_perm old _⟩)

/-- First of two occurrences of the login "alice". -/
def tripleA : String × Contributor :=
  ("r1", { login := "alice", avatarURL := "", contributions := 30 })

/-- Second occurrence of "alice", from another repository. -/
def tripleB : String × Contributor :=
  ("r2", { login := "alice", avatarURL := "", contributions := 12 })

/-- C6: the contributor merge is order-independent in its observable
content: permuting the multiset of (repository, contributor) occurrences
leaves, for every login, the presence of an entry, its contribution total
and its repository list up to order unchanged — and in every case no two
entries of the output share a login. -/
theorem merge_order_invariant (ts1 ts2 : List (String × Contributor))
    (h : ts1.Perm ts2) :
    (∀ login, hasLogin login (mergeTriples ts1) =
      hasLogin login (mergeTriples ts2)) ∧
    (∀ login, totalOf login (mergeTriples ts1) =
      totalOf login (mergeTriples ts2)) ∧
    (∀ login, (reposOf login (mergeTriples ts1)).Perm
      (reposOf login (mergeTriples ts2))) ∧
    ((mergeTriples ts1).map (fun s => s.login)).Nodup ∧
    ((mergeTriples ts2).map (fun s => s.login)).Nodup := by
  refine ⟨?_, ?_, ?_, ?_, ?_⟩
  · intro login
    unfold mergeTriples
    rw [hasLogin_foldl, hasLogin_foldl]
    congr 1
    rw [Bool.eq_iff_iff, List.any_eq_true, List.any_eq_true]
    exact ⟨fun ⟨x, hx, hp⟩ => ⟨x, h.mem_iff.1 hx, hp⟩,
           fun ⟨x, hx, hp⟩ => ⟨x, h.mem_iff.2 hx, hp⟩⟩
  · intro login
    unfold mergeTriples
    rw [totalOf_foldl, totalOf_foldl]
    congr 1
    exact (h.map (contribWeight login)).sum_eq
  · intro login
    unfold mergeTriples
    rw [reposOf_foldl, reposOf_foldl]
    exact ((h.filter (occursTriple login)).map (fun t => t.1))
  · exact nodup_logins_foldl ts1 [] (by simp)
  · exact nodup_logins_foldl ts2 [] (by simp)

theorem merge_order_invariant_witness :
    hasLogin "alice" (mergeTriples [tripleA, tripleB]) =
      hasLogin "alice" (mergeTriples [tripleB, tripleA]) ∧
    totalOf "alice" (mergeTriples [tripleA, tripleB]) =
      totalOf "alice" (mergeTriples [tripleB, tripleA]) ∧
    (reposOf "alice" (mergeTriples [tripleA, tripleB])).Perm
      (reposOf "alice" (mergeTriples [tripleB, tripleA])) ∧
    ((mergeTriples [tripleA, tripleB]).map (fun s => s.login)).Nodup :=
  ⟨(merge_order_invariant [tripleA, tripleB] [tripleB, tripleA]
      (List.Perm.swap tripleB tripleA [])).1 "alice",
   (merge_order_invariant [tripleA, tripleB] [tripleB, tripleA]
      (List.Perm.swap tripleB tripleA [])).2.1 "alice",
   (merge_order_invariant [tripleA, tripleB] [tripleB, tripleA]
      (List.Perm.swap tripleB tripleA [])).2.2.1 "alice",
   (merge_order_invariant [tripleA, tripleB] [tripleB, tripleA]
      (List.Perm.swap tripleB tripleA [])).2.2.2.1⟩

/-- C7: the limit step returns exactly the first `limit` entries when
`0 < limit < length`, and the whole sequence unchanged when `limit ≤ 0` or
`limit ≥ length` — as applied post-sort by the aggregation and the
contributors read path. -/
theorem applyLimit_spec (limit : Int) (l : List ContributorStats) :
    (0 < limit ∧ limit < (l.length : Int) →
      applyLimit limit l = l.take limit.toNat ∧
      (applyLimit limit l).length = limit.toNat) ∧
    (limit ≤ 0 ∨ (l.length : Int) ≤ limit → applyLimit limit l = l) := by
  constructor
  · intro h
    unfold applyLimit
    rw [if_pos h]
    refine ⟨rfl, ?_⟩
    rw [List.length_take]
    omega
  · intro h
    unfold applyLimit
    rw [if_neg (by omega)]

/-- Contributor entry with total 50, for the spec's worked example. -/
def e50 : ContributorStats := ⟨"u50", "", 50, ["r"]⟩

/-- First contributor entry with total 30. -/
def e30a : ContributorStats := ⟨"u30a", "", 30, ["r"]⟩

/-- Second contributor entry with total 30. -/
def e30b : ContributorStats := ⟨"u30b", "", 30, ["r"]⟩

/-- Contributor entry with total 10. -/
def e10 : ContributorStats := ⟨"u10", "", 10, ["r"]⟩

theorem applyLimit_spec_witness :
    applyLimit 2 [e50, e30a, e30b, e10] = [e50, e30a] ∧
    applyLimit 0 [e50, e30a, e30b, e10] = [e50, e30a, e30b, e10] ∧
    applyLimit 9 [e50, e30a, e30b, e10] = [e50, e30a, e30b, e10] :=
  ⟨((applyLimit_spec 2 [e50, e30a, e30b, e10]).1 ⟨by decide, by decide⟩).1.trans rfl,
   (applyLimit_spec 0 [e50, e30a, e30b, e10]).2 (.inl (by decide)),
   (applyLimit_spec 9 [e50, e30a, e30b, e10]).2 (.inr (by decide))⟩

/-- Two public repositories with one equally-weighted contributor each. -/
def clientTie : Client :=
  { listByOrg := .ok [repoFixture "r1", repoFixture "r2"]
    listContributors := fun n =>
      if n = "r1" then .ok [{ login := "alice", avatarURL := "", contributions := 30 }]
      else .ok [{ login := "bob", avatarURL := "", contributions := 30 }]
    listCommits := fun _ => .ok []
    listAllTopics := fun _ => .ok [] }

/-- The merged entry for "alice" under `clientTie`. -/
def aliceEntry : ContributorStats := ⟨"alice", "", 30, ["r1"]⟩

/-- The merged entry for "bob" under `clientTie`. -/
def bobEntry : ContributorStats := ⟨"bob", "", 30, ["r2"]⟩

theorem tie_outcome_insertion :
    ContribOutcome clientTie 0 (.ok [aliceEntry, bobEntry]) := by
  refine ⟨[aliceEntry, bobEntry], by decide, ?_⟩
  have hs : sortContributors [aliceEntry, bobEntry] = [aliceEntry, bobEntry] :=
    List.mergeSort_of_sorted (by decide)
  rw [hs]
  rfl

theorem tie_outcome_swapped :
    ContribOutcome clientTie 0 (.ok [bobEntry, aliceEntry]) := by
  refine ⟨[bobEntry, aliceEntry], by decide, ?_⟩
  have hs : sortContributors [bobEntry, aliceEntry] = [bobEntry, aliceEntry] :=
    List.mergeSort_of_sorted (by decide)
  rw [hs]
  rfl

/-- C3 as claimed is false of the code: the output order on equal totals is
not a function of the input multiset.  Go iterates the contributor map in
an unspecified (randomized) order and `sort.Slice` is unstable, so the very
same per-repository contributor lists admit both `[alice, bob]` and
`[bob, alice]` as outputs. -/
theorem contributor_tie_order_not_deterministic :
    ContribOutcome clientTie 0 (.ok [aliceEntry, bobEntry]) ∧
    ContribOutcome clientTie 0 (.ok [bobEntry, aliceEntry]) ∧
    (Except.ok [aliceEntry, bobEntry] : Except String (List ContributorStats)) ≠
      .ok [bobEntry, aliceEntry] :=
  ⟨tie_outcome_insertion, tie_outcome_swapped,
   fun h => absurd (Except.ok.inj h) (by decide)⟩

/-- C3 (amended): every possible output of the contributor aggregation is
sorted by total contributions in descending order, but ties are broken in
no particular (or repeatable) order — the map iteration order decides.
The worked example still holds for every iteration order: on totals
[50, 30, 30, 10], limit 2 yields the 50 followed by one of the 30s, and
limit 0 yields all four totals in descending order. -/
theorem contributor_order_spec :
    (∀ (client : Client) (limit : Int) (out : Except String (List ContributorStats))
       (l : List ContributorStats), ContribOutcome client limit out → out = .ok l →
       l.Pairwise (fun a b => contribGE a b = true)) ∧
    (∀ iter : List ContributorStats, iter.Perm [e50, e30a, e30b, e10] →
       (applyLimit 2 (sortContributors iter)).map (fun s => s.contributions) =
         [50, 30] ∧
       (applyLimit 0 (sortContributors iter)).map (fun s => s.contributions) =
         [50, 30, 30, 10]) := by
  constructor
  · intro client limit out l h hout
    unfold ContribOutcome at h
    split at h
    · rw [hout] at h
      exact absurd h (by simp)
    · obtain ⟨iter, hperm, heq⟩ := h
      rw [hout] at heq
      obtain rfl : l = applyLimit limit (sortContributors iter) := Except.ok.inj heq
      exact applyLimit_pairwise limit _ (sortContributors_pairwise iter)
  · intro iter hperm
    have hmap : (sortContributors iter).map (fun s => s.contributions) =
        [50, 30, 30, 10] := by
      have hp : ((sortContributors iter).map (fun s => s.contributions)).Perm
          [50, 30, 30, 10] := by
        have h0 := ((sortContributors_perm iter).trans hperm).map
          (fun s => s.contributions)
        simpa [e50, e30a, e30b, e10] using h0
      have hs : ((sortContributors iter).map (fun s => s.contributions)).Pairwise
          (fun a b : Int => b ≤ a) := by
        refine List.Pairwise.map _ ?_ (sortContributors_pairwise iter)
        intro a b hab
        simpa [contribGE] using hab
      haveI : IsAntisymm Int (fun a b : Int => b ≤ a) :=
        ⟨fun a b h1 h2 => le_antisymm h2 h1⟩
      have ht : List.Pairwise (fun a b : Int => b ≤ a) [50, 30, 30, 10] := by
        decide
      exact List.eq_of_perm_of_sorted hp hs ht
    have hlen : (sortContributors iter).length = 4 := by
      rw [(sortContributors_perm iter).length_eq, hperm.length_eq]
      rfl
    constructor
    · have h2 : applyLimit 2 (sortContributors iter) =
          (sortContributors iter).take 2 := by
        unfold applyLimit
        rw [if_pos ⟨by decide, by rw [hlen]; decide⟩]
        rfl
      rw [h2, List.map_take, hmap]
      rfl
    · have h0 : applyLimit 0 (sortContributors iter) = sortContributors iter := by
        unfold applyLimit
        rw [if_neg (by omega)]
      rw [h0, hmap]

theorem contributor_order_spec_witness :
    (([aliceEntry, bobEntry] : List ContributorStats).Pairwise
      (fun a b => contribGE a b = true)) ∧
    (applyLimit 2 (sortContributors [e50, e30a, e30b, e10])).map
      (fun s => s.contributions) = [50, 30] ∧
    (applyLimit 0 (sortContributors [e50, e30a, e30b, e10])).map
      (fun s => s.contributions) = [50, 30, 30, 10] :=
  ⟨contributor_order_spec.1 clientTie 0 (.ok [aliceEntry, bobEntry])
     [aliceEntry, bobEntry] tie_outcome_insertion rfl,
   (contributor_order_spec.2 [e50, e30a, e30b, e10] (List.Perm.refl _)).1,
   (contributor_order_spec.2 [e50, e30a, e30b, e10] (List.Perm.refl _)).2⟩

/-- C8: a contributor whose login is empty or contains "[bot]" in any
letter case is excluded entirely from contributor aggregation: no output
entry carries such a login, deleting its occurrences from the input does
not change the output at all, and every entry the real aggregation
produces passes the filter. -/
theorem bot_logins_excluded (ts : List (String × Contributor))
    (client : Client) (repos : List Repo) (login : String) :
    (isBotLogin login = true → ∀ e ∈ mergeTriples ts, e.login ≠ login) ∧
    mergeTriples ts =
      mergeTriples (ts.filter (fun t => !isBotLogin t.2.login)) ∧
    (∀ e ∈ buildContributorMap client repos, isBotLogin e.login = false) := by
  refine ⟨?_, ?_, ?_⟩
  · intro hbot e he heq
    have hnb : isBotLogin e.login = false :=
      nonbot_foldl_triples ts []
        (fun x hx => absurd hx (List.not_mem_nil x)) e he
    rw [heq, hbot] at hnb
    exact Bool.true_eq_false ▸ hnb
  · exact foldl_filter_nonbot ts []
  · exact nonbot_buildContributorMap client repos

/-- A bot occurrence mixed into the input of the merge. -/
def botTriple : String × Contributor :=
  ("r1", { login := "dep[Bot]", avatarURL := "", contributions := 99 })

theorem bot_logins_excluded_witness :
    (∀ e ∈ mergeTriples [botTriple, tripleA], e.login ≠ "dep[Bot]") ∧
    mergeTriples [botTriple, tripleA] =
      mergeTriples ([botTriple, tripleA].filter
        (fun t => !isBotLogin t.2.login)) :=
  ⟨(bot_logins_excluded [botTriple, tripleA] clientDown [] "dep[Bot]").1
     (by decide),
   (bot_logins_excluded [botTriple, tripleA] clientDown [] "dep[Bot]").2.1⟩

/-- C9: in repository-stats aggregation, a failing per-repository
sub-query (contributors, commits or topics) zeroes/empties only that field
of that repository's entry; each entry depends only on that repository's
descriptor and its own sub-query responses, so other repositories are
unaffected and aggregation completes; a failing organization listing makes
the whole aggregation return that error with no partial result. -/
theorem per_repo_failure_isolation (colorOf : String → String)
    (client client' : Client) (e : String) (repos : List Repo) (r : Repo) :
    (client.listByOrg = .error e → fetchStats colorOf client = .error e) ∧
    (client.listByOrg = .ok repos →
      fetchStats colorOf client =
        .ok ((repos.filter (fun x => !x.isPrivate)).map
          (repoStatOf colorOf client))) ∧
    (client.listContributors r.name = .error e →
      (repoStatOf colorOf client r).contributors = 0) ∧
    (client.listCommits r.name = .error e →
      (repoStatOf colorOf client r).commits = 0) ∧
    (client.listAllTopics r.name = .error e →
      (repoStatOf colorOf client r).tags = []) ∧
    (client.listContributors r.name = client'.listContributors r.name →
      client.listCommits r.name = client'.listCommits r.name →
      client.listAllTopics r.name = client'.listAllTopics r.name →
      repoStatOf colorOf client r = repoStatOf colorOf client' r) := by
  refine ⟨?_, ?_, ?_, ?_, ?_, ?_⟩
  · intro h; unfold fetchStats; rw [h]
  · intro h; unfold fetchStats; rw [h]
  · intro h; simp [repoStatOf, h]
  · intro h; simp [repoStatOf, h]
  · intro h; simp [repoStatOf, h]
  · intro h1 h2 h3
    unfold repoStatOf
    rw [h1, h2, h3]

/-- A client whose sole repository has a failing contributor listing but
working commit and topic queries. -/
def clientPartial : Client :=
  { listByOrg := .ok [repoFixture "r1"]
    listContributors := fun _ => .error "boom"
    listCommits := fun _ => .ok [(), ()]
    listAllTopics := fun _ => .ok ["t"] }

theorem per_repo_failure_isolation_witness :
    fetchStats colorDefault clientDown = .error "boom" ∧
    (repoStatOf colorDefault clientPartial (repoFixture "r1")).contributors = 0 ∧
    (repoStatOf colorDefault clientPartial (repoFixture "r1")).commits = 2 ∧
    fetchStats colorDefault clientPartial =
      .ok [repoStatOf colorDefault clientPartial (repoFixture "r1")] :=
  ⟨(per_repo_failure_isolation colorDefault clientDown clientDown "boom" []
      (repoFixture "r1")).1 rfl,
   (per_repo_failure_isolation colorDefault clientPartial clientPartial "boom"
      [repoFixture "r1"] (repoFixture "r1")).2.2.1 rfl,
   rfl,
   (per_repo_failure_isolation colorDefault clientPartial clientPartial "boom"
      [repoFixture "r1"] (repoFixture "r1")).2.1 rfl⟩

theorem buildContributorMap_all_private (client : Client) (repos : List Repo)
    (hpriv : ∀ r ∈ repos, r.isPrivate = true) :
    buildContributorMap client repos = [] := by
  unfold buildContributorMap
  induction repos with
  | nil => rfl
  | cons r rest ih =>
    rw [List.foldl_cons, if_pos (hpriv r (List.mem_cons_self r rest))]
    exact ih (fun x hx => hpriv x (List.mem_cons_of_mem r hx))

/-- C10: a refresh that succeeds with an empty sequence (for instance when
every listed repository is private) still writes the empty payload with a
fresh timestamp, and a subsequent get reports the entry as present —
`(payload = [], present = true)` — rather than absent. -/
theorem empty_refresh_is_present (c : Cache) (now : Nat)
    (colorOf : String → String) (client : Client) (repos : List Repo) :
    (c.updateStats now []).getStats = ([], true) ∧
    (c.updateStats now []).stats.timestamp = now ∧
    (c.updateContributors now []).getContributors = ([], true) ∧
    (c.updateContributors now []).contributors.timestamp = now ∧
    (client.listByOrg = .ok repos → (∀ r ∈ repos, r.isPrivate = true) →
      fetchStats colorOf client = .ok [] ∧
      fetchTopContributorsCore client 0 = .ok []) := by
  refine ⟨rfl, rfl, rfl, rfl, ?_⟩
  intro hby hpriv
  constructor
  · unfold fetchStats
    rw [hby]
    dsimp only
    have hfil : repos.filter (fun x => !x.isPrivate) = [] :=
      List.filter_eq_nil_iff.2 (fun a ha => by simp [hpriv a ha])
    rw [hfil]
    rfl
  · unfold fetchTopContributorsCore
    rw [hby]
    dsimp only
    rw [buildContributorMap_all_private client repos hpriv]
    simp [sortContributors, applyLimit]

/-- A client listing a single private repository. -/
def clientPriv : Client :=
  { listByOrg := .ok [{ repoFixture "p" with isPrivate := true }]
    listContributors := fun _ => .ok [{ login := "alice", avatarURL := "",
                                        contributions := 3 }]
    listCommits := fun _ => .ok [()]
    listAllTopics := fun _ => .ok ["t"] }

theorem empty_refresh_is_present_witness :
    (initialCache.updateStats 7 []).getStats = ([], true) ∧
    (initialCache.updateContributors 7 []).getContributors = ([], true) ∧
    fetchStats colorDefault clientPriv = .ok [] ∧
    fetchTopContributorsCore clientPriv 0 = .ok [] :=
  ⟨(empty_refresh_is_present initialCache 7 colorDefault clientPriv
      [{ repoFixture "p" with isPrivate := true }]).1,
   (empty_refresh_is_present initialCache 7 colorDefault clientPriv
      [{ repoFixture "p" with isPrivate := true }]).2.2.1,
   ((empty_refresh_is_present initialCache 7 colorDefault clientPriv
      [{ repoFixture "p" with isPrivate := true }]).2.2.2.2 rfl
      (by decide)).1,
   ((empty_refresh_is_present initialCache 7 colorDefault clientPriv
      [{ repoFixture "p" with isPrivate := true }]).2.2.2.2 rfl
      (by decide)).2⟩

end GitServer
